import Mathlib

/-!
Verification of the `rich` metadata-attachment core (crates `rich`,
`rich_serde`, `serde_rich`) against its natural-language specification.

The development shallowly embeds the Rust sources:
- machine integers (`usize`) are `Nat` with explicit saturation at
  `USIZE_MAX` (64-bit target), matching `usize::saturating_add`;
- `serde_json1::Value` is the inductive `Json` (document order preserved
  in `obj`; `serde_json`'s `Map`/`BTreeMap` is modelled as an association
  list with replace-on-insert, which has the same `insert`/`get`
  semantics observable through the view layer);
- fallible decoding returns `Option` (`none` models a `serde` error, and
  in `ValueView.visit` it models the `todo!()` panic);
- the `&mut RichScope` threading is explicit state passing.
-/

/-- Maximum value of `usize` on the 64-bit targets the crates are built for. -/
def USIZE_MAX : Nat := 2 ^ 64 - 1

/-- Embedding of `usize::saturating_add(1)`, used by `RichScope::attach` and
`RichScope::wrap` to advance the counter (`rich_serde/src/lib.rs:94,100`). -/
def satSucc (n : Nat) : Nat := min (n + 1) USIZE_MAX

/-- `rich::MetaId` (`rich/src/lib.rs:25`): opaque identifier wrapping a `usize`. -/
structure MetaId where
  val : Nat
deriving DecidableEq

/-- `rich::MetaId::from_usize` (`rich/src/lib.rs:34`). -/
def MetaId.from_usize (value : Nat) : MetaId := MetaId.mk value

/-- `rich::MetaId::into_usize` (`rich/src/lib.rs:29`). -/
def MetaId.into_usize (m : MetaId) : Nat := m.val

/-- `rich::Rich<T, M>` (`rich/src/lib.rs:41`): a value paired with metadata. -/
structure Rich (T : Type) (M : Type) where
  value : T
  meta : M
deriving DecidableEq

/-- `rich::WrappedMeta<N>`: a node's own identifier plus nested metadata for
its children.  The definition is absent from the `rich/src/lib.rs` snapshot
(only a commented-out copy at lines 707-717 remains), but the shape is fully
determined by its uses: `WrappedMeta::new(nested, id)` in
`rich_serde/src/lib.rs:101` and `rich/src/ecosystem/serde_json1.rs:50,97,136`,
and field accesses `.id` / `.nested` in `rich/src/ecosystem/serde_json1.rs:43,51`.
This is the spec's "Wrapped Node Metadata". -/
structure WrappedMeta (N : Type) where
  nested : N
  id : MetaId
deriving DecidableEq

/-- `WrappedMeta::new(nested, id)`. -/
def WrappedMeta.new {N : Type} (nested : N) (id : MetaId) : WrappedMeta N :=
  WrappedMeta.mk nested id

/-- `rich::TreeMeta<MainMeta, NestedMeta>` (`rich/src/lib.rs:568`): metadata for
a value together with metadata for its sub-components, as produced by the
split operation. -/
structure TreeMeta (MainMeta : Type) (NestedMeta : Type) where
  meta : MainMeta
  nested : NestedMeta
deriving DecidableEq

/-- `rich_serde::RichScope` (`rich_serde/src/lib.rs:83`): the Id Scope, a
mutable `next_id : usize` counter. -/
structure RichScope where
  next_id : Nat
deriving DecidableEq

/-- `RichScope::new` (`rich_serde/src/lib.rs:88`): starts at `usize::MIN = 0`. -/
def RichScope.new : RichScope := RichScope.mk 0

/-- `RichScope::attach` (`rich_serde/src/lib.rs:92`): pair a value with a fresh
identifier; the counter advances with `saturating_add(1)`. -/
def RichScope.attach {T : Type} (s : RichScope) (value : T) : Rich T MetaId × RichScope :=
  (Rich.mk value (MetaId.mk s.next_id), RichScope.mk (satSucc s.next_id))

/-- `RichScope::wrap` (`rich_serde/src/lib.rs:98`): wrap an existing
(value, nested metadata) pair into `WrappedMeta` with a fresh identifier. -/
def RichScope.wrap {V N : Type} (s : RichScope) (rich : Rich V N) :
    Rich V (WrappedMeta N) × RichScope :=
  (Rich.mk rich.value (WrappedMeta.new rich.meta (MetaId.mk s.next_id)),
    RichScope.mk (satSucc s.next_id))

namespace SerdeRich

/-- `serde_rich::RichScope` (`serde_rich/src/lib.rs:50`): structurally identical
second copy of the Id Scope in the `serde_rich` crate. -/
structure RichScope where
  next_id : Nat
deriving DecidableEq

/-- `serde_rich::RichScope::new` (`serde_rich/src/lib.rs:55`). -/
def RichScope.new : RichScope := RichScope.mk 0

/-- `serde_rich::RichScope::attach` (`serde_rich/src/lib.rs:61`). -/
def RichScope.attach {T : Type} (s : RichScope) (value : T) : Rich T MetaId × RichScope :=
  (Rich.mk value (MetaId.mk s.next_id), RichScope.mk (satSucc s.next_id))

end SerdeRich

/-- `serde_json1::Value`: JSON documents. `obj` keeps entries in document
(decoder-encounter) order. -/
inductive Json : Type where
  | null : Json
  | bool : Bool → Json
  | num : Int → Json
  | str : String → Json
  | arr : List Json → Json
  | obj : List (String × Json) → Json

/-- `rich::ecosystem::serde_json1::ValueMeta` (`rich/src/ecosystem/serde_json1.rs:12`):
metadata for a `serde_json::Value`.  `Meta<bool> = Meta<String> = Meta<()> = ()`
and `Meta<Value> = Option<ValueMeta>`, so the arms specialize as below.  The
`Object` arm's `BTreeMap` is an association list (see module comment). -/
inductive ValueMeta : Type where
  | null : WrappedMeta Unit → ValueMeta
  | bool : WrappedMeta Unit → ValueMeta
  | number : MetaId → ValueMeta
  | str : WrappedMeta Unit → ValueMeta
  | arr : List (WrappedMeta (Option ValueMeta)) → ValueMeta
  | obj : List (String × WrappedMeta (Option ValueMeta)) → ValueMeta

/-- `BTreeMap::insert` on the association-list model: replace the entry if the
key is present, otherwise append. -/
def smapInsert {α : Type} (k : String) (a : α) : List (String × α) → List (String × α)
  | [] => [(k, a)]
  | (k2, b) :: rest => if k2 = k then (k, a) :: rest else (k2, b) :: smapInsert k a rest

/-- `BTreeMap::get` / `serde_json::Map::get` on the association-list model. -/
def smapGet {α : Type} (k : String) : List (String × α) → Option α
  | [] => none
  | (k2, a) :: rest => if k2 = k then some a else smapGet k rest

mutual

/-- The `RichVisitor` of `impl RichDeserialize for serde_json1::Value`
(`rich_serde/src/ecosystem/serde_json1.rs:24-114`), as dispatched by
`deserializer.deserialize_any`:
- `visit_bool` (lines 33-46) and `visit_str`/`visit_string` (lines 85-113)
  wrap the raw scalar (with `()` nested metadata) through `scope.wrap`,
  minting the inner identifier;
- `visit_seq` (lines 67-83) and `visit_map` (lines 48-65) recursively
  deserialize each child via `RichScopeSerdeSeed`, i.e. `rich_deserialize`,
  whose trailing `scope.wrap` is inlined here (see
  `visitSeq_cons_eq_rich_deserialize` below);
- JSON `null` and numbers have no visitor method, so serde's default
  `visit_unit`/`visit_i64`/... return an error, modelled as `none`. -/
def visitAny : Json → RichScope → Option ((Json × Option ValueMeta) × RichScope)
  | .null, _ => none
  | .num _, _ => none
  | .bool b, s =>
    let w := s.wrap (Rich.mk b ())
    some ((Json.bool w.1.value, some (ValueMeta.bool w.1.meta)), w.2)
  | .str t, s =>
    let w := s.wrap (Rich.mk t ())
    some ((Json.str w.1.value, some (ValueMeta.str w.1.meta)), w.2)
  | .arr xs, s =>
    match visitSeq xs s with
    | none => none
    | some ((vs, ms), s2) => some ((Json.arr vs, some (ValueMeta.arr ms)), s2)
  | .obj kvs, s =>
    match visitMap [] [] kvs s with
    | none => none
    | some ((vm, mm), s2) => some ((Json.obj vm, some (ValueMeta.obj mm)), s2)

/-- The `visit_seq` loop (`rich_serde/src/ecosystem/serde_json1.rs:67-83`):
per element, run `rich_deserialize` (= `visitAny` then `scope.wrap`) and push
`rich.value` / `rich.meta` in encounter order. -/
def visitSeq : List Json → RichScope →
    Option ((List Json × List (WrappedMeta (Option ValueMeta))) × RichScope)
  | [], s => some (([], []), s)
  | x :: xs, s =>
    match visitAny x s with
    | none => none
    | some ((v, m), s1) =>
      let w := s1.wrap (Rich.mk v m)
      match visitSeq xs w.2 with
      | none => none
      | some ((vs, ms), s2) => some ((w.1.value :: vs, w.1.meta :: ms), s2)

/-- The `visit_map` loop (`rich_serde/src/ecosystem/serde_json1.rs:48-65`):
per entry in decoder encounter order, run `rich_deserialize` on the value and
`insert` into the accumulated value map and metadata map. -/
def visitMap : List (String × Json) → List (String × WrappedMeta (Option ValueMeta)) →
    List (String × Json) → RichScope →
    Option ((List (String × Json) × List (String × WrappedMeta (Option ValueMeta))) × RichScope)
  | accv, accm, [], s => some ((accv, accm), s)
  | accv, accm, (k, v) :: rest, s =>
    match visitAny v s with
    | none => none
    | some ((vv, m), s1) =>
      let w := s1.wrap (Rich.mk vv m)
      visitMap (smapInsert k w.1.value accv) (smapInsert k w.1.meta accm) rest w.2

end

/-- `rich_deserialize` for `serde_json1::Value`
(`rich_serde/src/ecosystem/serde_json1.rs:16-118`):
`deserializer.deserialize_any(RichVisitor(scope)).map(|v| scope.wrap(v))`. -/
def rich_deserialize (j : Json) (s : RichScope) :
    Option (Rich Json (WrappedMeta (Option ValueMeta)) × RichScope) :=
  match visitAny j s with
  | none => none
  | some ((v, m), s2) =>
    let w := s2.wrap (Rich.mk v m)
    some (w.1, w.2)

/-- The recursion in `visitSeq` is exactly `rich_deserialize` per element: the
nested `seq.next_element_seed(RichScopeSerdeSeed::new(..))` call is
`rich_deserialize`, whose trailing `scope.wrap` was inlined in `visitSeq`. -/
theorem visitSeq_cons_eq_rich_deserialize (x : Json) (xs : List Json) (s : RichScope) :
    visitSeq (x :: xs) s =
      match rich_deserialize x s with
      | none => none
      | some (r, s1) =>
        match visitSeq xs s1 with
        | none => none
        | some ((vs, ms), s2) => some ((r.value :: vs, r.meta :: ms), s2) := by
  rcases h : visitAny x s with _ | ⟨⟨v, m⟩, s1⟩
  · simp [visitSeq, rich_deserialize, h]
  · simp [visitSeq, rich_deserialize, h]

/-- Likewise the recursion in `visitMap` is `rich_deserialize` per entry. -/
theorem visitMap_cons_eq_rich_deserialize (accv : List (String × Json))
    (accm : List (String × WrappedMeta (Option ValueMeta)))
    (k : String) (v : Json) (rest : List (String × Json)) (s : RichScope) :
    visitMap accv accm ((k, v) :: rest) s =
      match rich_deserialize v s with
      | none => none
      | some (r, s1) =>
        visitMap (smapInsert k r.value accv) (smapInsert k r.meta accm) rest s1 := by
  rcases h : visitAny v s with _ | ⟨⟨vv, m⟩, s1⟩
  · simp [visitMap, rich_deserialize, h]
  · simp [visitMap, rich_deserialize, h]

/-- The `DEFAULT` constant of `ValueView::visit`'s `Bool` arm
(`rich/src/ecosystem/serde_json1.rs:50`): `WrappedMeta::new((), MetaId::from_usize(0))`. -/
def DEFAULT_BOOL_META : WrappedMeta Unit := WrappedMeta.new () (MetaId.from_usize 0)

/-- The `DEFAULT` constant of `ValueView::visit`'s `Array` arm
(`rich/src/ecosystem/serde_json1.rs:58`): an empty metadata vector. -/
def DEFAULT_ARRAY_META : List (WrappedMeta (Option ValueMeta)) := []

/-- The `DEFAULT` constant of `ValueView::visit`'s `Object` arm
(`rich/src/ecosystem/serde_json1.rs:66`): an empty metadata map. -/
def DEFAULT_OBJECT_META : List (String × WrappedMeta (Option ValueMeta)) := []

/-- The `DEFAULT` sentinel of `ArrayView::get` and `ObjectView::get`
(`rich/src/ecosystem/serde_json1.rs:97,136`):
`WrappedMeta::new(None, MetaId::from_usize(0))`. -/
def DEFAULT_CHILD_META : WrappedMeta (Option ValueMeta) :=
  WrappedMeta.new none (MetaId.from_usize 0)

/-- `rich::ecosystem::serde_json1::value::ValueView`
(`rich/src/ecosystem/serde_json1.rs:31`): non-owning cursor over a
(`Value`, `WrappedMeta<Option<ValueMeta>>`) pair. -/
structure ValueView where
  toRich : Rich Json (WrappedMeta (Option ValueMeta))

/-- `ValueView::value` (`rich/src/ecosystem/serde_json1.rs:38`). -/
def ValueView.value (v : ValueView) : Json := v.toRich.value

/-- `ValueView::meta` (`rich/src/ecosystem/serde_json1.rs:42`): the node's own
identifier, `self.0.meta.id`. -/
def ValueView.meta (v : ValueView) : MetaId := v.toRich.meta.id

/-- `rich::BoolView`: used by `ValueView::visit`
(`rich/src/ecosystem/serde_json1.rs:55`); its definition is absent from the
`rich/src/lib.rs` snapshot (a commented-out copy remains at line 720), shape
reconstructed from that and from `BoolView::new(Rich::new(value, meta))` with
`meta : &WrappedMeta<Meta<bool>>`, i.e. `WrappedMeta<()>`. -/
structure BoolView where
  toRich : Rich Bool (WrappedMeta Unit)

/-- `rich::ecosystem::serde_json1::value::ArrayView`
(`rich/src/ecosystem/serde_json1.rs:85`). -/
structure ArrayView where
  toRich : Rich (List Json) (List (WrappedMeta (Option ValueMeta)))

/-- `rich::ecosystem::serde_json1::value::ObjectView`
(`rich/src/ecosystem/serde_json1.rs:109`). -/
structure ObjectView where
  toRich : Rich (List (String × Json)) (List (String × WrappedMeta (Option ValueMeta)))

/-- `ObjectView::value` (`rich/src/ecosystem/serde_json1.rs:126`). -/
def ObjectView.value (o : ObjectView) : List (String × Json) := o.toRich.value

/-- `rich::ecosystem::serde_json1::value::ValueVisit`
(`rich/src/ecosystem/serde_json1.rs:78`): the tagged dispatch result.  The
enum has exactly the three arms `Bool`, `Array`, `Object`. -/
inductive ValueVisit where
  | Bool : BoolView → ValueVisit
  | Array : ArrayView → ValueVisit
  | Object : ObjectView → ValueVisit

/-- The metadata selection of `ValueView::visit`'s `Bool` arm
(`rich/src/ecosystem/serde_json1.rs:51-54`): use the `ValueMeta::Bool` payload
when present, otherwise the `DEFAULT` sentinel. -/
def boolMetaOf : Option ValueMeta → WrappedMeta Unit
  | some (ValueMeta.bool m) => m
  | _ => DEFAULT_BOOL_META

/-- The metadata selection of `ValueView::visit`'s `Array` arm
(`rich/src/ecosystem/serde_json1.rs:59-62`). -/
def arrayMetaOf : Option ValueMeta → List (WrappedMeta (Option ValueMeta))
  | some (ValueMeta.arr m) => m
  | _ => DEFAULT_ARRAY_META

/-- The metadata selection of `ValueView::visit`'s `Object` arm
(`rich/src/ecosystem/serde_json1.rs:67-70`). -/
def objectMetaOf : Option ValueMeta → List (String × WrappedMeta (Option ValueMeta))
  | some (ValueMeta.obj m) => m
  | _ => DEFAULT_OBJECT_META

/-- `ValueView::visit` (`rich/src/ecosystem/serde_json1.rs:46-75`): dispatch on
the value's active variant.  The `Bool`, `Array` and `Object` variants return
the matching tagged view; the remaining variants (`Null`, `Number`, `String`)
fall into the `_ => todo!()` arm (line 73), a panic, modelled as `none`. -/
def ValueView.visit (v : ValueView) : Option ValueVisit :=
  match v.toRich.value with
  | Json.bool b =>
    some (ValueVisit.Bool (BoolView.mk (Rich.mk b (boolMetaOf v.toRich.meta.nested))))
  | Json.arr xs =>
    some (ValueVisit.Array (ArrayView.mk (Rich.mk xs (arrayMetaOf v.toRich.meta.nested))))
  | Json.obj kvs =>
    some (ValueVisit.Object (ObjectView.mk (Rich.mk kvs (objectMetaOf v.toRich.meta.nested))))
  | _ => none

/-- `ArrayView::get` (`rich/src/ecosystem/serde_json1.rs:96-105`):
`rich.value.get(index)?`, then the metadata at the same index, falling back to
the `DEFAULT` sentinel when the metadata vector has no such index. -/
def ArrayView.get (a : ArrayView) (index : Nat) : Option ValueView :=
  match a.toRich.value[index]? with
  | none => none
  | some v =>
    let m := match a.toRich.meta[index]? with
      | some m => m
      | none => DEFAULT_CHILD_META
    some (ValueView.mk (Rich.mk v m))

/-- `ObjectView::get` (`rich/src/ecosystem/serde_json1.rs:130-144`):
`rich.value.get(key)?`, then the metadata at the same key, falling back to the
`DEFAULT` sentinel when the metadata map has no entry. -/
def ObjectView.get (o : ObjectView) (key : String) : Option ValueView :=
  match smapGet key o.toRich.value with
  | none => none
  | some v =>
    let m := match smapGet key o.toRich.meta with
      | some m => m
      | none => DEFAULT_CHILD_META
    some (ValueView.mk (Rich.mk v m))

/-- `rich::Rich::deep_split_meta` (`rich/src/lib.rs:677-692`), with the
`SplitMeta` trait method passed as an explicit dictionary: split the inner
value, then pair the pure value with `TreeMeta::new(self.meta, nested)`.
No scope is consulted and no identifier is minted. -/
def deep_split_meta {T V P M : Type} (split_meta : T → Rich V P) (r : Rich T M) :
    Rich V (TreeMeta M P) :=
  let x := split_meta r.value
  Rich.mk x.value (TreeMeta.mk r.meta x.meta)

/-- `impl SplitMeta for bool` (`rich/src/lib.rs:639-645`): primitives split
into (value, empty metadata). -/
def boolSplitMeta (b : Bool) : Rich Bool Unit := Rich.mk b ()

/-- `impl SplitMeta for u32` (`rich/src/lib.rs:647-653`); `u32` values are
modelled as `Nat` (no arithmetic is performed on them). -/
def u32SplitMeta (n : Nat) : Rich Nat Unit := Rich.mk n ()

/-- Modelled from the spec: `impl SplitMeta for String` is only present in
commented-out form in `rich/src/lib.rs:655-661` but is required by
`serde_rich`'s `RichConfig::split_meta`; per spec section 4.5 "Primitive leaf
types split trivially into (value, empty metadata)". -/
def stringSplitMeta (t : String) : Rich String Unit := Rich.mk t ()

/-- `Mascot` (`rich/src/lib.rs:733`, test module): a statically-shaped record
with two primitive fields. -/
structure Mascot where
  is_crab : Bool
  price : Nat
deriving DecidableEq

/-- `MascotStructure` (`rich/src/lib.rs:739`): the structural projection of
`Mascot`, one slot per field. -/
structure MascotStructure (TyIsCrab : Type) (TyPrice : Type) where
  is_crab : TyIsCrab
  price : TyPrice
deriving DecidableEq

/-- `RichMascot` (`rich/src/lib.rs:759`): `Mascot` carrying inline per-field
identifiers. -/
structure RichMascot where
  is_crab : Rich Bool MetaId
  price : Rich Nat MetaId
deriving DecidableEq

/-- `impl SplitMeta<MetaId> for RichMascot` (`rich/src/lib.rs:764-781`). -/
def RichMascot.split_meta (m : RichMascot) :
    Rich Mascot (MascotStructure (TreeMeta MetaId Unit) (TreeMeta MetaId Unit)) :=
  let is_crab := deep_split_meta boolSplitMeta m.is_crab
  let price := deep_split_meta u32SplitMeta m.price
  Rich.mk (Mascot.mk is_crab.value price.value)
    (MascotStructure.mk is_crab.meta price.meta)

/-- `serde_rich::Nested` (`serde_rich/src/lib.rs:69`). -/
structure Nested where
  crab : Bool
deriving DecidableEq

/-- `serde_rich::RichNested` (`serde_rich/src/lib.rs:74`). -/
structure RichNested where
  crab : Rich Bool MetaId
deriving DecidableEq

/-- `serde_rich::MetaNested` (`serde_rich/src/lib.rs:83`): its field has type
`MetaNode<()>`.  `MetaNode` belongs to the `rich` version missing from the
snapshot; modelled from the spec's "Tree Metadata" (section 3: same concept as
Wrapped Node Metadata, a pair of own identifier and nested metadata, produced
by the split pipeline), i.e. as `TreeMeta MetaId`. -/
structure MetaNested where
  crab : TreeMeta MetaId Unit
deriving DecidableEq

/-- `impl SplitMeta for RichNested` (`serde_rich/src/lib.rs:87-94`). -/
def RichNested.split_meta (r : RichNested) : Rich Nested MetaNested :=
  let crab := deep_split_meta boolSplitMeta r.crab
  Rich.mk (Nested.mk crab.value) (MetaNested.mk crab.meta)

/-- `serde_rich::Config` (`serde_rich/src/lib.rs:117`). -/
structure Config where
  str : String
  num : Nat
  nested : Nested
deriving DecidableEq

/-- `serde_rich::RichConfig` (`serde_rich/src/lib.rs:135`). -/
structure RichConfig where
  str : Rich String MetaId
  num : Rich Nat MetaId
  nested : Rich RichNested MetaId
deriving DecidableEq

/-- `serde_rich::MetaConfig` (`serde_rich/src/lib.rs:128`), `MetaNode`
modelled as `TreeMeta MetaId` as above. -/
structure MetaConfig where
  str : TreeMeta MetaId Unit
  num : TreeMeta MetaId Unit
  nested : TreeMeta MetaId MetaNested
deriving DecidableEq

/-- `impl SplitMeta for RichConfig` (`serde_rich/src/lib.rs:141-157`): split
every field recursively, reassemble the pure `Config` and the `MetaConfig`
metadata tree. -/
def RichConfig.split_meta (r : RichConfig) : Rich Config MetaConfig :=
  let str := deep_split_meta stringSplitMeta r.str
  let num := deep_split_meta u32SplitMeta r.num
  let nested := deep_split_meta RichNested.split_meta r.nested
  Rich.mk (Config.mk str.value num.value nested.value)
    (MetaConfig.mk str.meta num.meta nested.meta)

/-!
Specification-side definitions: number of identifiers minted per document
node, post-order identifier traces of metadata trees, the post-order /
sibling-order predicate, and well-formedness of documents.
-/

mutual

/-- Number of identifiers the visitor itself mints while decoding one node
(excluding the node's own trailing `scope.wrap` in `rich_deserialize`):
one inner identifier per scalar, and the full count of every child for
arrays and objects. -/
def innerMints : Json → Nat
  | .null => 0
  | .num _ => 0
  | .bool _ => 1
  | .str _ => 1
  | .arr xs => seqMints xs
  | .obj kvs => mapMints kvs

/-- Identifiers minted for a list of array elements (each child costs
`innerMints + 1`, the `+ 1` being the child's own wrap). -/
def seqMints : List Json → Nat
  | [] => 0
  | x :: xs => (innerMints x + 1) + seqMints xs

/-- Identifiers minted for a list of object entries. -/
def mapMints : List (String × Json) → Nat
  | [] => 0
  | (_, v) :: rest => (innerMints v + 1) + mapMints rest

end

/-- Total number of identifiers minted by `rich_deserialize` on one document:
the visitor's mints plus the document node's own wrap. -/
def mints (j : Json) : Nat := innerMints j + 1

mutual

/-- Post-order identifier trace of a `ValueMeta` tree: children's traces in
storage order, each child's own identifier after its descendants. -/
def vmPost : ValueMeta → List Nat
  | .null w => [w.id.val]
  | .bool w => [w.id.val]
  | .number i => [i.val]
  | .str w => [w.id.val]
  | .arr ws => wsPost ws
  | .obj kvs => fieldsPost kvs

/-- Post-order trace of optional nested metadata. -/
def omPost : Option ValueMeta → List Nat
  | none => []
  | some m => vmPost m

/-- Post-order trace of a list of wrapped children (array storage). -/
def wsPost : List (WrappedMeta (Option ValueMeta)) → List Nat
  | [] => []
  | WrappedMeta.mk n i :: ws => (omPost n ++ [i.val]) ++ wsPost ws

/-- Post-order trace of an object metadata map's entries in storage order. -/
def fieldsPost : List (String × WrappedMeta (Option ValueMeta)) → List Nat
  | [] => []
  | (_, WrappedMeta.mk n i) :: rest => (omPost n ++ [i.val]) ++ fieldsPost rest

end

/-- Post-order identifier trace of a wrapped node: descendants first, own
identifier last. -/
def wmPost (w : WrappedMeta (Option ValueMeta)) : List Nat :=
  omPost w.nested ++ [w.id.val]

/-- Sibling ordering: every identifier in the left sibling's subtree is
strictly below every identifier in the right sibling's subtree. -/
def blockLt (a b : WrappedMeta (Option ValueMeta)) : Prop :=
  ∀ x ∈ wmPost a, ∀ y ∈ wmPost b, x < y

mutual

/-- Post-order/sibling-order property of a metadata tree, per node: at array
and object nodes the children are block-ordered left to right, and each child
satisfies the own-identifier-dominates-descendants property recursively. -/
def vmOrd : ValueMeta → Prop
  | .arr ws => List.Pairwise blockLt ws ∧ wsOrd ws
  | .obj kvs => List.Pairwise blockLt (kvs.map Prod.snd) ∧ fieldsOrd kvs
  | _ => True

/-- Lift of `vmOrd` to optional nested metadata. -/
def omOrd : Option ValueMeta → Prop
  | none => True
  | some m => vmOrd m

/-- All wrapped children of an array node are internally post-ordered. -/
def wsOrd : List (WrappedMeta (Option ValueMeta)) → Prop
  | [] => True
  | WrappedMeta.mk n i :: ws => ((∀ x ∈ omPost n, x < i.val) ∧ omOrd n) ∧ wsOrd ws

/-- All wrapped children of an object node are internally post-ordered. -/
def fieldsOrd : List (String × WrappedMeta (Option ValueMeta)) → Prop
  | [] => True
  | (_, WrappedMeta.mk n i) :: rest => ((∀ x ∈ omPost n, x < i.val) ∧ omOrd n) ∧ fieldsOrd rest

end

/-- Post-order/sibling-order property of a wrapped node: the node's own
identifier strictly dominates every descendant identifier, recursively at
every level, with siblings block-ordered. -/
def wmOrd (w : WrappedMeta (Option ValueMeta)) : Prop :=
  (∀ x ∈ omPost w.nested, x < w.id.val) ∧ omOrd w.nested

mutual

/-- Well-formedness of a document for the exact-trace statements: every
object's keys are pairwise distinct (a duplicate key makes `BTreeMap::insert`
replace the earlier entry, discarding the earlier child's metadata). -/
def jsonWF : Json → Bool
  | .null => true
  | .num _ => true
  | .bool _ => true
  | .str _ => true
  | .arr xs => seqWF xs
  | .obj kvs => decide ((kvs.map Prod.fst).Nodup) && mapWF kvs

/-- Well-formedness of array elements. -/
def seqWF : List Json → Bool
  | [] => true
  | x :: xs => jsonWF x && seqWF xs

/-- Well-formedness of object entries. -/
def mapWF : List (String × Json) → Bool
  | [] => true
  | (_, v) :: rest => jsonWF v && mapWF rest

end

/-- Keys of an association-list map. -/
def keysOf {α : Type} (m : List (String × α)) : List String := m.map Prod.fst

/-- One mint operation against a scope: `attach` or `wrap`
(`rich_serde/src/lib.rs:92-103`); both return the current counter as the new
identifier and advance it with `saturating_add(1)`. -/
inductive MintOp : Type where
  | attachOp : MintOp
  | wrapOp : MintOp

/-- Run a sequence of mint operations against a scope, collecting the minted
identifiers in mint order.  `attach` is run on a unit value and `wrap` on a
unit pair; the minted identifier does not depend on the carried value. -/
def runMints : List MintOp → RichScope → List MetaId × RichScope
  | [], s => ([], s)
  | MintOp.attachOp :: ops, s =>
    let r := s.attach ()
    let rest := runMints ops r.2
    (r.1.meta :: rest.1, rest.2)
  | MintOp.wrapOp :: ops, s =>
    let r := s.wrap (Rich.mk () ())
    let rest := runMints ops r.2
    (r.1.meta.id :: rest.1, rest.2)

/-- The identifier values produced by `n` consecutive mints starting from
counter value `s`. -/
def idsFrom : Nat → Nat → List Nat
  | _, 0 => []
  | s, n + 1 => s :: idsFrom (satSucc s) n

/-- The counter value after `n` consecutive mints starting from `s`. -/
def cntFrom : Nat → Nat → Nat
  | s, 0 => s
  | s, n + 1 => cntFrom (satSucc s) n

/-! Basic lemmas about the saturating counter, maps and post-order traces. -/

theorem satSucc_of_le {n : Nat} (h : n + 1 ≤ USIZE_MAX) : satSucc n = n + 1 :=
  min_eq_left h

theorem satSucc_le_max (n : Nat) : satSucc n ≤ USIZE_MAX := min_le_right _ _

theorem satSucc_max : satSucc USIZE_MAX = USIZE_MAX := by
  simp [satSucc]

theorem keysOf_append {α : Type} (a b : List (String × α)) :
    keysOf (a ++ b) = keysOf a ++ keysOf b := by
  simp [keysOf]

theorem smapInsert_of_not_mem {α : Type} {k : String} {m : List (String × α)} (a : α)
    (h : k ∉ keysOf m) : smapInsert k a m = m ++ [(k, a)] := by
  induction m with
  | nil => rfl
  | cons p rest ih =>
    obtain ⟨k2, b⟩ := p
    simp only [keysOf, List.map_cons, List.mem_cons, not_or] at h
    have hne : ¬(k2 = k) := fun e => h.1 e.symm
    simp only [smapInsert, List.cons_append, if_neg hne]
    rw [ih h.2]

theorem wmPost_mk (n : Option ValueMeta) (i : MetaId) :
    wmPost (WrappedMeta.mk n i) = omPost n ++ [i.val] := rfl

theorem wsPost_eq_flatten (ws : List (WrappedMeta (Option ValueMeta))) :
    wsPost ws = (ws.map wmPost).flatten := by
  induction ws with
  | nil => rfl
  | cons w ws ih =>
    obtain ⟨n, i⟩ := w
    simp [wsPost, wmPost, ih]

theorem fieldsPost_eq_flatten (kvs : List (String × WrappedMeta (Option ValueMeta))) :
    fieldsPost kvs = ((kvs.map Prod.snd).map wmPost).flatten := by
  induction kvs with
  | nil => rfl
  | cons p rest ih =>
    obtain ⟨k, n, i⟩ := p
    simp [fieldsPost, wmPost, ih]

theorem mem_wsPost_of_mem {ws : List (WrappedMeta (Option ValueMeta))}
    {w : WrappedMeta (Option ValueMeta)} (hw : w ∈ ws) {y : Nat} (hy : y ∈ wmPost w) :
    y ∈ wsPost ws := by
  rw [wsPost_eq_flatten]
  exact List.mem_flatten.2 ⟨wmPost w, List.mem_map_of_mem wmPost hw, hy⟩

theorem mem_fieldsPost_of_mem {kvs : List (String × WrappedMeta (Option ValueMeta))}
    {w : WrappedMeta (Option ValueMeta)} (hw : w ∈ kvs.map Prod.snd) {y : Nat}
    (hy : y ∈ wmPost w) : y ∈ fieldsPost kvs := by
  rw [fieldsPost_eq_flatten]
  exact List.mem_flatten.2 ⟨wmPost w, List.mem_map_of_mem wmPost hw, hy⟩

/-- A metadata tree whose post-order identifier trace is strictly increasing
satisfies the post-order/sibling-order property at every node (the optional
nested metadata level, which is what `wmOrd` recurses through). -/
theorem omPost_sorted_ord : ∀ om : Option ValueMeta,
    List.Pairwise (fun a b => a < b) (omPost om) → omOrd om := by
  apply omPost.induct
    (fun vm => List.Pairwise (fun a b => a < b) (vmPost vm) → vmOrd vm)
    (fun kvs => List.Pairwise (fun a b => a < b) (fieldsPost kvs) →
      List.Pairwise blockLt (kvs.map Prod.snd) ∧ fieldsOrd kvs)
    (fun om => List.Pairwise (fun a b => a < b) (omPost om) → omOrd om)
    (fun ws => List.Pairwise (fun a b => a < b) (wsPost ws) →
      List.Pairwise blockLt ws ∧ wsOrd ws)
  · intro w _; trivial
  · intro w _; trivial
  · intro i _; trivial
  · intro w _; trivial
  · intro ws ih h
    exact ih h
  · intro kvs ih h
    exact ih h
  · intro _
    exact ⟨List.Pairwise.nil, trivial⟩
  · intro n i ws ihn ihws h
    rw [show wsPost (WrappedMeta.mk n i :: ws) = (omPost n ++ [i.val]) ++ wsPost ws from rfl,
      List.pairwise_append] at h
    obtain ⟨hhead, htail, hcross⟩ := h
    rw [List.pairwise_append] at hhead
    obtain ⟨hn, _, hlt⟩ := hhead
    obtain ⟨hpair, hord⟩ := ihws htail
    refine ⟨List.Pairwise.cons ?_ hpair, ?_⟩
    · intro w2 hw2
      intro x hx y hy
      exact hcross x hx y (mem_wsPost_of_mem hw2 hy)
    · exact ⟨⟨fun x hx => hlt x hx i.val (by simp), ihn hn⟩, hord⟩
  · intro _
    exact ⟨List.Pairwise.nil, trivial⟩
  · intro k n i rest ihn ihrest h
    rw [show fieldsPost ((k, WrappedMeta.mk n i) :: rest) =
        (omPost n ++ [i.val]) ++ fieldsPost rest from rfl,
      List.pairwise_append] at h
    obtain ⟨hhead, htail, hcross⟩ := h
    rw [List.pairwise_append] at hhead
    obtain ⟨hn, _, hlt⟩ := hhead
    obtain ⟨hpair, hord⟩ := ihrest htail
    refine ⟨?_, ?_⟩
    · rw [List.map_cons]
      refine List.Pairwise.cons ?_ hpair
      intro w2 hw2
      intro x hx y hy
      exact hcross x hx y (mem_fieldsPost_of_mem hw2 hy)
    · exact ⟨⟨fun x hx => hlt x hx i.val (by simp), ihn hn⟩, hord⟩
  · intro _; trivial
  · intro m ih h
    exact ih h

/-- Specialization to a wrapped node: a strictly increasing post-order trace
yields the full post-order/sibling-order property. -/
theorem wmPost_sorted_ord (w : WrappedMeta (Option ValueMeta))
    (h : List.Pairwise (fun a b => a < b) (wmPost w)) : wmOrd w := by
  obtain ⟨n, i⟩ := w
  rw [wmPost_mk, List.pairwise_append] at h
  obtain ⟨hn, _, hlt⟩ := h
  exact ⟨fun x hx => hlt x hx i.val (by simp), omPost_sorted_ord n hn⟩

theorem range'_snoc (a k : Nat) : List.range' a k ++ [a + k] = List.range' a (k + 1) := by
  have h := List.range'_append a k 1 1
  simp only [one_mul, List.range'_one] at h
  rw [h]
  congr 1
  omega

theorem range'_snoc_append (a k q : Nat) :
    (List.range' a k ++ [a + k]) ++ List.range' (a + k + 1) q = List.range' a (k + 1 + q) := by
  rw [range'_snoc]
  have h := List.range'_append a (k + 1) q 1
  simp only [one_mul] at h
  have h3 : a + (k + 1) = a + k + 1 := by omega
  rw [h3] at h
  rw [h]
  congr 1
  omega

/-- Induction motive for `visitAny`: on success, for a well-formed document
and with no counter saturation, the counter advances by exactly `innerMints`
and the produced metadata's post-order trace is the consecutive identifier
range starting at the initial counter. -/
def TraceAny (j : Json) (s : RichScope) : Prop :=
  ∀ v m s2, visitAny j s = some ((v, m), s2) → jsonWF j = true →
    s.next_id + innerMints j ≤ USIZE_MAX →
    s2 = RichScope.mk (s.next_id + innerMints j) ∧
      omPost m = List.range' s.next_id (innerMints j)

/-- Induction motive for `visitMap`: the metadata accumulator grows by
appended fresh entries whose post-order trace is the consecutive identifier
range. -/
def TraceMap (accv : List (String × Json))
    (accm : List (String × WrappedMeta (Option ValueMeta)))
    (kvs : List (String × Json)) (s : RichScope) : Prop :=
  ∀ vm mm s2, visitMap accv accm kvs s = some ((vm, mm), s2) → mapWF kvs = true →
    (keysOf accm ++ kvs.map Prod.fst).Nodup →
    s.next_id + mapMints kvs ≤ USIZE_MAX →
    s2 = RichScope.mk (s.next_id + mapMints kvs) ∧
      ∃ new, mm = accm ++ new ∧ fieldsPost new = List.range' s.next_id (mapMints kvs)

/-- Induction motive for `visitSeq`. -/
def TraceSeq (xs : List Json) (s : RichScope) : Prop :=
  ∀ vs ms s2, visitSeq xs s = some ((vs, ms), s2) → seqWF xs = true →
    s.next_id + seqMints xs ≤ USIZE_MAX →
    s2 = RichScope.mk (s.next_id + seqMints xs) ∧
      wsPost ms = List.range' s.next_id (seqMints xs)

/-- Identifier-trace invariant of the attachment protocol's visitor: decoding
a well-formed document without saturating the counter mints exactly the
consecutive identifiers, laid out in post-order in the metadata tree. -/
theorem visitAny_trace : ∀ (j : Json) (s : RichScope), TraceAny j s := by
  apply visitAny.induct TraceAny TraceMap TraceSeq
  · intro s v m s2 h _ _
    simp [visitAny] at h
  · intro a s v m s2 h _ _
    simp [visitAny] at h
  · intro b s v m s2 h _ hb
    simp only [visitAny, RichScope.wrap, WrappedMeta.new, Option.some.injEq,
      Prod.mk.injEq] at h
    obtain ⟨⟨hv, hm⟩, hs⟩ := h
    subst hv hm hs
    simp only [innerMints] at hb ⊢
    refine ⟨by rw [satSucc_of_le hb], ?_⟩
    simp [omPost, vmPost, List.range'_one]
  · intro t s v m s2 h _ hb
    simp only [visitAny, RichScope.wrap, WrappedMeta.new, Option.some.injEq,
      Prod.mk.injEq] at h
    obtain ⟨⟨hv, hm⟩, hs⟩ := h
    subst hv hm hs
    simp only [innerMints] at hb ⊢
    refine ⟨by rw [satSucc_of_le hb], ?_⟩
    simp [omPost, vmPost, List.range'_one]
  · intro xs s hnone _ v m s2 h _ _
    simp [visitAny, hnone] at h
  · intro xs s vs ms s2 heq ih v m s2' h hwf hb
    simp only [visitAny, heq, Option.some.injEq, Prod.mk.injEq] at h
    obtain ⟨⟨hv, hm⟩, hs⟩ := h
    subst hv hm hs
    simp only [jsonWF] at hwf
    simp only [innerMints] at hb ⊢
    obtain ⟨ha, hpost⟩ := ih vs ms s2 heq hwf hb
    exact ⟨ha, by simpa [omPost, vmPost] using hpost⟩
  · intro kvs s hnone _ v m s2 h _ _
    simp [visitAny, hnone] at h
  · intro kvs s vm mm s2 heq ih v m s2' h hwf hb
    simp only [visitAny, heq, Option.some.injEq, Prod.mk.injEq] at h
    obtain ⟨⟨hv, hm⟩, hs⟩ := h
    subst hv hm hs
    simp only [jsonWF, Bool.and_eq_true] at hwf
    simp only [innerMints] at hb ⊢
    have hnd : (keysOf ([] : List (String × WrappedMeta (Option ValueMeta))) ++
        kvs.map Prod.fst).Nodup := by
      simpa [keysOf] using of_decide_eq_true hwf.1
    obtain ⟨ha, new, hmm, hpost⟩ := ih vm mm s2 heq hwf.2 hnd hb
    rw [List.nil_append] at hmm
    subst hmm
    exact ⟨ha, by simpa [omPost, vmPost] using hpost⟩
  · intro s vs ms s2 h _ _
    simp only [visitSeq, Option.some.injEq, Prod.mk.injEq] at h
    obtain ⟨⟨hvs, hms⟩, hs⟩ := h
    subst hvs hms hs
    obtain ⟨sn⟩ := s
    refine ⟨by simp [seqMints], ?_⟩
    simp [wsPost, seqMints]
  · intro x xs s hA _ vs ms s2 h _ _
    simp [visitSeq, hA] at h
  · intro x xs s v m s1 hA w hS ih1 ih3 vs ms s2 h _ _
    have hw : w = s1.wrap (Rich.mk v m) := rfl
    rw [hw] at hS
    simp [visitSeq, hA, hS] at h
  · intro x xs s v m s1 hA w vs ms s2 hS ih1 ih3 vs' ms' s2' h hwf hb
    have hw : w = s1.wrap (Rich.mk v m) := rfl
    rw [hw] at hS ih3
    simp only [visitSeq, hA, hS, Option.some.injEq, Prod.mk.injEq] at h
    obtain ⟨⟨hvs, hms⟩, hs⟩ := h
    subst hvs hms hs
    simp only [seqWF, Bool.and_eq_true] at hwf
    simp only [seqMints] at hb ⊢
    obtain ⟨hs1, hpostm⟩ := ih1 v m s1 hA hwf.1 (by omega)
    subst hs1
    simp only [RichScope.wrap, WrappedMeta.new] at ih3 hS ⊢
    rw [satSucc_of_le (by omega : s.next_id + innerMints x + 1 ≤ USIZE_MAX)] at ih3 hS
    obtain ⟨hs2, hpostms⟩ := ih3 vs ms s2 hS hwf.2
      (show s.next_id + innerMints x + 1 + seqMints xs ≤ USIZE_MAX by omega)
    have hs2' : s2 = RichScope.mk (s.next_id + innerMints x + 1 + seqMints xs) := hs2
    have hpostms' : wsPost ms =
        List.range' (s.next_id + innerMints x + 1) (seqMints xs) := hpostms
    constructor
    · rw [hs2']
      congr 1
      omega
    · show wsPost (WrappedMeta.mk m (MetaId.mk (s.next_id + innerMints x)) :: ms) = _
      rw [show wsPost (WrappedMeta.mk m (MetaId.mk (s.next_id + innerMints x)) :: ms) =
        (omPost m ++ [s.next_id + innerMints x]) ++ wsPost ms from rfl]
      rw [hpostm, hpostms']
      exact range'_snoc_append s.next_id (innerMints x) (seqMints xs)
  · intro accv accm s vm mm s2 h _ _ _
    simp only [visitMap, Option.some.injEq, Prod.mk.injEq] at h
    obtain ⟨⟨hvm, hmm⟩, hs⟩ := h
    subst hvm hmm hs
    obtain ⟨sn⟩ := s
    refine ⟨by simp [mapMints], ⟨[], by simp, by simp [fieldsPost, mapMints]⟩⟩
  · intro accv accm k v rest s hA _ vm mm s2 h _ _ _
    simp [visitMap, hA] at h
  · intro accv accm k v rest s v1 m s1 hA w ih1 ih2 vm mm s2 h hwf hnd hb
    have hw : w = s1.wrap (Rich.mk v1 m) := rfl
    rw [hw] at ih2
    simp only [visitMap, hA] at h
    simp only [mapWF, Bool.and_eq_true] at hwf
    simp only [mapMints] at hb ⊢
    obtain ⟨hs1, hpostm⟩ := ih1 v1 m s1 hA hwf.1 (by omega)
    subst hs1
    simp only [RichScope.wrap, WrappedMeta.new] at ih2 h
    rw [satSucc_of_le (by omega : s.next_id + innerMints v + 1 ≤ USIZE_MAX)] at ih2 h
    have hkeys : ((k, v) :: rest).map Prod.fst = k :: rest.map Prod.fst := rfl
    rw [hkeys] at hnd
    have hkfresh : k ∉ keysOf accm := by
      rw [List.nodup_append] at hnd
      intro hmem
      exact hnd.2.2 hmem (by simp)
    have hinsm : smapInsert k (WrappedMeta.mk m (MetaId.mk (s.next_id + innerMints v))) accm =
        accm ++ [(k, WrappedMeta.mk m (MetaId.mk (s.next_id + innerMints v)))] :=
      smapInsert_of_not_mem _ hkfresh
    rw [hinsm] at ih2 h
    have hnd2 : (keysOf (accm ++
        [(k, WrappedMeta.mk m (MetaId.mk (s.next_id + innerMints v)))]) ++
        rest.map Prod.fst).Nodup := by
      rw [keysOf_append]
      have hk1 : keysOf [(k, WrappedMeta.mk m (MetaId.mk (s.next_id + innerMints v)))] = [k] := rfl
      rw [hk1, List.append_assoc]
      simpa using hnd
    obtain ⟨hs2, new', hmm, hpost⟩ := ih2 vm mm s2 h hwf.2 hnd2
      (show s.next_id + innerMints v + 1 + mapMints rest ≤ USIZE_MAX by omega)
    have hs2' : s2 = RichScope.mk (s.next_id + innerMints v + 1 + mapMints rest) := hs2
    have hpost' : fieldsPost new' =
        List.range' (s.next_id + innerMints v + 1) (mapMints rest) := hpost
    constructor
    · rw [hs2']
      congr 1
      omega
    · refine ⟨(k, WrappedMeta.mk m (MetaId.mk (s.next_id + innerMints v))) :: new', ?_, ?_⟩
      · rw [hmm, List.append_assoc]
        rfl
      · rw [show fieldsPost ((k, WrappedMeta.mk m (MetaId.mk (s.next_id + innerMints v))) :: new') =
          (omPost m ++ [s.next_id + innerMints v]) ++ fieldsPost new' from rfl]
        rw [hpostm, hpost']
        exact range'_snoc_append s.next_id (innerMints v) (mapMints rest)

/-- Identifier-trace invariant of `rich_deserialize`: on a well-formed
document, starting from counter `s` with no saturation, the final counter is
`s + mints j`, the post-order trace of the produced metadata tree is exactly
the consecutive range `s, s+1, ..., s + mints j - 1`, and the root's own
identifier is the last one minted. -/
theorem rich_deserialize_trace (j : Json) (s : RichScope)
    (r : Rich Json (WrappedMeta (Option ValueMeta))) (s2 : RichScope)
    (h : rich_deserialize j s = some (r, s2)) (hwf : jsonWF j = true)
    (hb : s.next_id + mints j ≤ USIZE_MAX) :
    s2 = RichScope.mk (s.next_id + mints j) ∧
      wmPost r.meta = List.range' s.next_id (mints j) ∧
      r.meta.id.val = s.next_id + innerMints j := by
  rcases hA : visitAny j s with _ | ⟨⟨v, m⟩, s1⟩
  · rw [rich_deserialize, hA] at h
    exact absurd h (by simp)
  · rw [rich_deserialize, hA] at h
    simp only [RichScope.wrap, WrappedMeta.new, Option.some.injEq, Prod.mk.injEq] at h
    obtain ⟨hr, hs⟩ := h
    subst hr hs
    simp only [mints] at hb ⊢
    obtain ⟨hs1, hpost⟩ := visitAny_trace j s v m s1 hA hwf (by omega)
    subst hs1
    rw [satSucc_of_le (by omega : s.next_id + innerMints j + 1 ≤ USIZE_MAX)]
    refine ⟨rfl, ?_, rfl⟩
    show omPost m ++ [s.next_id + innerMints j] = _
    rw [hpost]
    exact range'_snoc s.next_id (innerMints j)

/-! Lemmas about raw mint sequences (`runMints`). -/

theorem idsFrom_length (s n : Nat) : (idsFrom s n).length = n := by
  induction n generalizing s with
  | zero => rfl
  | succ n ih => simp [idsFrom, ih]

theorem runMints_eq (ops : List MintOp) (s : Nat) :
    runMints ops (RichScope.mk s) =
      ((idsFrom s ops.length).map MetaId.mk, RichScope.mk (cntFrom s ops.length)) := by
  induction ops generalizing s with
  | nil => rfl
  | cons op ops ih =>
    cases op with
    | attachOp =>
      simp only [runMints, RichScope.attach, ih (satSucc s), List.length_cons]
      rfl
    | wrapOp =>
      simp only [runMints, RichScope.wrap, WrappedMeta.new, ih (satSucc s), List.length_cons]
      rfl

theorem idsFrom_eq_range' {s n : Nat} (h : s + n ≤ USIZE_MAX + 1) :
    idsFrom s n = List.range' s n := by
  induction n generalizing s with
  | zero => rfl
  | succ n ih =>
    cases n with
    | zero =>
      simp [idsFrom, List.range'_one]
    | succ q =>
      rw [idsFrom, List.range'_succ, satSucc_of_le (by omega)]
      rw [ih (by omega)]

/-! Claim theorems. -/

/-- The document of the concrete decoding scenario:
`{"foo": true, "message": "Hello, World!", "list": [true, false]}`. -/
def c1ObjValue : List (String × Json) :=
  [("foo", Json.bool true), ("message", Json.str "Hello, World!"),
    ("list", Json.arr [Json.bool true, Json.bool false])]

/-- The concrete scenario document as a `Json` value. -/
def c1Doc : Json := Json.obj c1ObjValue

/-- Metadata decoded for the `"foo"` entry: raw boolean id 0, union node id 1. -/
def c1FooMeta : WrappedMeta (Option ValueMeta) :=
  WrappedMeta.mk (some (ValueMeta.bool (WrappedMeta.mk () (MetaId.mk 0)))) (MetaId.mk 1)

/-- Metadata decoded for the `"message"` entry: raw string id 2, union node id 3. -/
def c1MessageMeta : WrappedMeta (Option ValueMeta) :=
  WrappedMeta.mk (some (ValueMeta.str (WrappedMeta.mk () (MetaId.mk 2)))) (MetaId.mk 3)

/-- Metadata decoded for the `"list"` entry: element raw booleans 4 and 6,
element union nodes 5 and 7, array union node 8. -/
def c1ListMeta : WrappedMeta (Option ValueMeta) :=
  WrappedMeta.mk (some (ValueMeta.arr
    [WrappedMeta.mk (some (ValueMeta.bool (WrappedMeta.mk () (MetaId.mk 4)))) (MetaId.mk 5),
     WrappedMeta.mk (some (ValueMeta.bool (WrappedMeta.mk () (MetaId.mk 6)))) (MetaId.mk 7)]))
    (MetaId.mk 8)

/-- Decoded metadata map of the root object. -/
def c1ObjMeta : List (String × WrappedMeta (Option ValueMeta)) :=
  [("foo", c1FooMeta), ("message", c1MessageMeta), ("list", c1ListMeta)]

/-- The full decode result: unchanged value tree, root object union node id 9. -/
def c1Root : Rich Json (WrappedMeta (Option ValueMeta)) :=
  Rich.mk c1Doc (WrappedMeta.mk (some (ValueMeta.obj c1ObjMeta)) (MetaId.mk 9))

/-- C1: decoding `{"foo": true, "message": "Hello, World!", "list": [true, false]}`
with a fresh scope assigns exactly the identifiers 0 (raw bool of `"foo"`),
1 (`"foo"` union node), 2 (raw string of `"message"`), 3 (`"message"` union
node), 4/5 (first list element raw/union), 6/7 (second element), 8 (array
union node), 9 (root object union node), leaving the counter at 10; a view
over the root reports own identifier 9 and `get("foo")` on its object
dispatch yields a view with own identifier 1. -/
theorem C1_concrete_scenario :
    rich_deserialize c1Doc RichScope.new = some (c1Root, RichScope.mk 10) ∧
    (ValueView.mk c1Root).meta = MetaId.from_usize 9 ∧
    (ValueView.mk c1Root).visit =
      some (ValueVisit.Object (ObjectView.mk (Rich.mk c1ObjValue c1ObjMeta))) ∧
    (ObjectView.mk (Rich.mk c1ObjValue c1ObjMeta)).get "foo" =
      some (ValueView.mk (Rich.mk (Json.bool true) c1FooMeta)) ∧
    (ValueView.mk (Rich.mk (Json.bool true) c1FooMeta)).meta = MetaId.from_usize 1 :=
  ⟨rfl, rfl, rfl, rfl, rfl⟩

/-- C4: decoding a scalar (boolean or string) consumes exactly two identifiers
from the scope, in order: first the inner identifier attached to the raw
scalar itself (wrapped around empty nested metadata), then the outer
identifier wrapping it into the matching arm of the dynamically-typed union
node; the counter advances by exactly two saturating steps. -/
theorem C4_scalar_two_identifiers (b : Bool) (t : String) (s : RichScope) :
    rich_deserialize (Json.bool b) s =
      some (Rich.mk (Json.bool b)
        (WrappedMeta.mk (some (ValueMeta.bool (WrappedMeta.mk () (MetaId.mk s.next_id))))
          (MetaId.mk (satSucc s.next_id))),
        RichScope.mk (satSucc (satSucc s.next_id))) ∧
    rich_deserialize (Json.str t) s =
      some (Rich.mk (Json.str t)
        (WrappedMeta.mk (some (ValueMeta.str (WrappedMeta.mk () (MetaId.mk s.next_id))))
          (MetaId.mk (satSucc s.next_id))),
        RichScope.mk (satSucc (satSucc s.next_id))) :=
  ⟨rfl, rfl⟩

/-- C5: minting (attach or wrap, in either crate's `RichScope`) always returns
the current counter and advances it by a saturating increment; at
`usize::MAX` further mints neither wrap around to zero nor fail, and keep
returning `usize::MAX`. -/
theorem C5_saturating_counter (T : Type) (v : T) (s : Nat) :
    (RichScope.attach (RichScope.mk s) v =
      (Rich.mk v (MetaId.mk s), RichScope.mk (min (s + 1) USIZE_MAX))) ∧
    (RichScope.wrap (RichScope.mk s) (Rich.mk v ()) =
      (Rich.mk v (WrappedMeta.mk () (MetaId.mk s)), RichScope.mk (min (s + 1) USIZE_MAX))) ∧
    (SerdeRich.RichScope.attach (SerdeRich.RichScope.mk s) v =
      (Rich.mk v (MetaId.mk s), SerdeRich.RichScope.mk (min (s + 1) USIZE_MAX))) ∧
    (RichScope.attach (RichScope.mk USIZE_MAX) v =
      (Rich.mk v (MetaId.mk USIZE_MAX), RichScope.mk USIZE_MAX)) ∧
    (RichScope.wrap (RichScope.mk USIZE_MAX) (Rich.mk v ()) =
      (Rich.mk v (WrappedMeta.mk () (MetaId.mk USIZE_MAX)), RichScope.mk USIZE_MAX)) ∧
    (SerdeRich.RichScope.attach (SerdeRich.RichScope.mk USIZE_MAX) v =
      (Rich.mk v (MetaId.mk USIZE_MAX), SerdeRich.RichScope.mk USIZE_MAX)) := by
  refine ⟨rfl, rfl, rfl, ?_, ?_, ?_⟩
  · simp [RichScope.attach, satSucc_max]
  · simp [RichScope.wrap, WrappedMeta.new, satSucc_max]
  · simp [SerdeRich.RichScope.attach, satSucc_max]

/-- C6: the split operation on statically-shaped rich values is pure with
respect to identifiers: for every combination of field values and inline
identifiers, `deep_split_meta` returns the pure value with all field values
unchanged, paired with a metadata tree (shaped as the structural projection
of the declared shape) containing exactly the identifiers that were inline in
the input.  No scope is consulted and no identifier is minted (the operation
does not even receive a scope). -/
theorem C6_split_pure (sv : String) (nv : Nat) (cv bv : Bool) (pv : Nat)
    (sid nid cid tid rid mid1 mid2 mid3 : MetaId) :
    deep_split_meta RichConfig.split_meta
      (Rich.mk (RichConfig.mk (Rich.mk sv sid) (Rich.mk nv nid)
        (Rich.mk (RichNested.mk (Rich.mk cv cid)) tid)) rid) =
      Rich.mk (Config.mk sv nv (Nested.mk cv))
        (TreeMeta.mk rid (MetaConfig.mk (TreeMeta.mk sid ()) (TreeMeta.mk nid ())
          (TreeMeta.mk tid (MetaNested.mk (TreeMeta.mk cid ()))))) ∧
    deep_split_meta RichMascot.split_meta
      (Rich.mk (RichMascot.mk (Rich.mk bv mid1) (Rich.mk pv mid2)) mid3) =
      Rich.mk (Mascot.mk bv pv)
        (TreeMeta.mk mid3 (MascotStructure.mk (TreeMeta.mk mid1 ()) (TreeMeta.mk mid2 ()))) :=
  ⟨rfl, rfl⟩

/-- C9 counterexample: `ValueView::visit` does not return a tagged result for
every variant of the value.  On a `String` value (with its own correctly
shaped metadata, as produced by the decoder) it hits the `_ => todo!()` arm, a
panic (modelled as `none`), instead of exposing a more specific view. -/
theorem C9_counterexample :
    (ValueView.mk (Rich.mk (Json.str "Hello, World!")
      (WrappedMeta.mk (some (ValueMeta.str (WrappedMeta.mk () (MetaId.mk 0))))
        (MetaId.mk 1)))).visit = none :=
  rfl

/-- C9 (amended): `ValueView::visit` returns the matching tagged view for the
implemented variants — boolean, array, object — extracting the matching
metadata arm (or the sentinel default on a metadata shape mismatch), and
never coerces a value to a different shape; the null, number and string
variants hit the unimplemented `todo!()` arm and panic (`none`), which is a
defect to fix rather than a silent fallback. -/
theorem C9_visit_dispatch (w : WrappedMeta (Option ValueMeta)) (b : Bool) (i : Int)
    (t : String) (xs : List Json) (kvs : List (String × Json)) :
    (ValueView.mk (Rich.mk (Json.bool b) w)).visit =
      some (ValueVisit.Bool (BoolView.mk (Rich.mk b (boolMetaOf w.nested)))) ∧
    (ValueView.mk (Rich.mk (Json.arr xs) w)).visit =
      some (ValueVisit.Array (ArrayView.mk (Rich.mk xs (arrayMetaOf w.nested)))) ∧
    (ValueView.mk (Rich.mk (Json.obj kvs) w)).visit =
      some (ValueVisit.Object (ObjectView.mk (Rich.mk kvs (objectMetaOf w.nested)))) ∧
    (ValueView.mk (Rich.mk Json.null w)).visit = none ∧
    (ValueView.mk (Rich.mk (Json.num i) w)).visit = none ∧
    (ValueView.mk (Rich.mk (Json.str t) w)).visit = none :=
  ⟨rfl, rfl, rfl, rfl, rfl, rfl⟩

theorem idsFrom_append (n m s : Nat) :
    idsFrom s (n + m) = idsFrom s n ++ idsFrom (cntFrom s n) m := by
  induction n generalizing s with
  | zero =>
    rw [Nat.zero_add]
    rfl
  | succ n ih =>
    rw [show n + 1 + m = (n + m) + 1 from by omega]
    rw [idsFrom, ih (satSucc s)]
    rfl

theorem cntFrom_min (n : Nat) : ∀ s : Nat, s ≤ USIZE_MAX →
    cntFrom s n = min (s + n) USIZE_MAX := by
  induction n with
  | zero =>
    intro s hs
    simp [cntFrom]
    omega
  | succ n ih =>
    intro s hs
    rw [cntFrom, ih (satSucc s) (satSucc_le_max s)]
    simp only [satSucc]
    omega

/-- C2 counterexample: against a single scope created by `RichScope::new`, the
sequence of identifiers returned by `usize::MAX + 2` mint operations, read in
mint order, is not strictly increasing: once the counter saturates, the last
two mints both return `usize::MAX`. -/
theorem C2_counterexample :
    ¬ List.Pairwise (fun a b : MetaId => a.val < b.val)
      (runMints (List.replicate (USIZE_MAX + 2) MintOp.attachOp) RichScope.new).1 := by
  intro hpair
  rw [show RichScope.new = RichScope.mk 0 from rfl, runMints_eq,
    List.length_replicate] at hpair
  have hpair1 : List.Pairwise (fun a b : MetaId => a.val < b.val)
      ((idsFrom 0 (USIZE_MAX + 2)).map MetaId.mk) := hpair
  have hpair2 := List.pairwise_map.mp hpair1
  rw [idsFrom_append USIZE_MAX 2 0, cntFrom_min USIZE_MAX 0 (by omega),
    show min (0 + USIZE_MAX) USIZE_MAX = USIZE_MAX from by omega,
    List.pairwise_append] at hpair2
  have h2 := hpair2.2.1
  rw [show idsFrom USIZE_MAX 2 = [USIZE_MAX, satSucc USIZE_MAX] from rfl, satSucc_max,
    List.pairwise_cons] at h2
  exact absurd (h2.1 USIZE_MAX (by simp)) (by simp)

/-- C2 (amended): the identifiers returned by a sequence of mint operations
(attach or wrap) against a single scope, read in mint order, are strictly
increasing with no repeats as long as the identifier space is not exhausted:
starting from counter `s`, any sequence of at most `usize::MAX + 1 - s` mints
is strictly increasing (for a fresh scope, the first `2^64` mints).  Beyond
that the counter saturates and `usize::MAX` repeats (see the
counterexample). -/
theorem C2_mint_monotonic (ops : List MintOp) (s : Nat)
    (h : s + ops.length ≤ USIZE_MAX + 1) :
    List.Pairwise (fun a b : MetaId => a.val < b.val)
      (runMints ops (RichScope.mk s)).1 := by
  rw [runMints_eq]
  show List.Pairwise _ ((idsFrom s ops.length).map MetaId.mk)
  rw [List.pairwise_map, idsFrom_eq_range' h]
  exact List.pairwise_lt_range' s ops.length 1

/-- C2 witness: three mints from a fresh scope yield the strictly increasing
identifiers 0, 1, 2. -/
theorem C2_mint_monotonic_witness :
    (0 : Nat) + ([MintOp.attachOp, MintOp.wrapOp, MintOp.attachOp] : List MintOp).length ≤
      USIZE_MAX + 1 ∧
    List.Pairwise (fun a b : MetaId => a.val < b.val)
      (runMints [MintOp.attachOp, MintOp.wrapOp, MintOp.attachOp] (RichScope.mk 0)).1 :=
  ⟨by norm_num [USIZE_MAX],
   C2_mint_monotonic [MintOp.attachOp, MintOp.wrapOp, MintOp.attachOp] 0
     (by norm_num [USIZE_MAX])⟩

/-- The metadata tree decoded for `{"a": true}` from a scope whose counter has
already saturated at `usize::MAX`: every node receives identifier
`usize::MAX`. -/
def c3BadMeta : WrappedMeta (Option ValueMeta) :=
  WrappedMeta.mk (some (ValueMeta.obj
    [("a", WrappedMeta.mk (some (ValueMeta.bool (WrappedMeta.mk () (MetaId.mk USIZE_MAX))))
      (MetaId.mk USIZE_MAX))]))
    (MetaId.mk USIZE_MAX)

/-- C3 counterexample: identifier assignment is not post-order for every
document decoded by the attachment protocol.  Decoding `{"a": true}` from a
scope whose counter sits at `usize::MAX` — a state reachable from a fresh
scope after `usize::MAX` mints, third conjunct — assigns `usize::MAX` to the
root and to all of its descendants, so the root's own identifier is not
strictly greater than its descendants' identifiers. -/
theorem C3_counterexample :
    rich_deserialize (Json.obj [("a", Json.bool true)]) (RichScope.mk USIZE_MAX) =
      some (Rich.mk (Json.obj [("a", Json.bool true)]) c3BadMeta, RichScope.mk USIZE_MAX) ∧
    ¬ wmOrd c3BadMeta ∧
    cntFrom 0 USIZE_MAX = USIZE_MAX := by
  refine ⟨rfl, ?_, by rw [cntFrom_min USIZE_MAX 0 (by omega)]; omega⟩
  intro hord
  have hmem : USIZE_MAX ∈ omPost c3BadMeta.nested := by
    rw [show omPost c3BadMeta.nested = [USIZE_MAX, USIZE_MAX] from rfl]
    simp
  exact absurd (hord.1 USIZE_MAX hmem) (by simp [c3BadMeta])

/-- C3 (amended): for every document whose objects have pairwise-distinct keys
(a duplicate key makes the map insert discard the earlier child's metadata),
decoded without exhausting the identifier space, identifier assignment is
post-order: the post-order traversal of the produced metadata tree reads off
exactly the consecutively minted identifiers, hence each node's own
identifier is minted strictly after and is strictly greater than every
identifier of its descendants, and sibling nodes (array elements, and object
entries in decoder encounter order) occupy strictly increasing identifier
blocks, left to right. -/
theorem C3_post_order (j : Json) (s : RichScope)
    (r : Rich Json (WrappedMeta (Option ValueMeta))) (s2 : RichScope)
    (h : rich_deserialize j s = some (r, s2)) (hwf : jsonWF j = true)
    (hb : s.next_id + mints j ≤ USIZE_MAX) :
    wmPost r.meta = List.range' s.next_id (mints j) ∧ wmOrd r.meta := by
  obtain ⟨_, hpost, _⟩ := rich_deserialize_trace j s r s2 h hwf hb
  refine ⟨hpost, wmPost_sorted_ord r.meta ?_⟩
  rw [hpost]
  exact List.pairwise_lt_range' s.next_id (mints j) 1

/-- The metadata tree decoded for `{"a": true}` from a fresh scope. -/
def c3GoodMeta : WrappedMeta (Option ValueMeta) :=
  WrappedMeta.mk (some (ValueMeta.obj
    [("a", WrappedMeta.mk (some (ValueMeta.bool (WrappedMeta.mk () (MetaId.mk 0))))
      (MetaId.mk 1))]))
    (MetaId.mk 2)

/-- C3 witness: decoding `{"a": true}` from a fresh scope mints 0 (raw bool),
1 (bool union node), 2 (root object union node); the post-order trace is
`[0, 1, 2]` and the tree is post-ordered. -/
theorem C3_post_order_witness :
    rich_deserialize (Json.obj [("a", Json.bool true)]) (RichScope.mk 0) =
      some (Rich.mk (Json.obj [("a", Json.bool true)]) c3GoodMeta, RichScope.mk 3) ∧
    jsonWF (Json.obj [("a", Json.bool true)]) = true ∧
    (RichScope.mk 0).next_id + mints (Json.obj [("a", Json.bool true)]) ≤ USIZE_MAX ∧
    (wmPost c3GoodMeta = List.range' 0 3 ∧ wmOrd c3GoodMeta) :=
  ⟨rfl, rfl, by norm_num [mints, innerMints, mapMints, USIZE_MAX],
   C3_post_order (Json.obj [("a", Json.bool true)]) (RichScope.mk 0)
     (Rich.mk (Json.obj [("a", Json.bool true)]) c3GoodMeta) (RichScope.mk 3)
     rfl rfl (by norm_num [mints, innerMints, mapMints, USIZE_MAX])⟩

theorem getElemOpt_isSome_iff {α : Type} (l : List α) (i : Nat) :
    (l[i]?).isSome = true ↔ i < l.length := by
  constructor
  · intro hs
    by_contra hlt
    rw [List.getElem?_eq_none_iff.mpr (by omega)] at hs
    simp at hs
  · intro hlt
    simp [List.getElem?_eq_getElem hlt]

/-- C7: for every mapping view and sequence view over a (value tree, metadata
tree) pair, `get` returns `Some` if and only if the key (resp. index) is
valid in the value tree; the returned pair carries the value-tree child, and
when the metadata tree has an entry at the same key/index, exactly that
entry; a key absent from the value map yields `None`. -/
theorem C7_view_get_consistency (vm : List (String × Json))
    (mm : List (String × WrappedMeta (Option ValueMeta))) (k : String)
    (vs : List Json) (ms : List (WrappedMeta (Option ValueMeta))) (i : Nat) :
    ((((ObjectView.mk (Rich.mk vm mm)).get k).isSome) = (smapGet k vm).isSome) ∧
    (∀ v, smapGet k vm = some v → ∀ m, smapGet k mm = some m →
      (ObjectView.mk (Rich.mk vm mm)).get k = some (ValueView.mk (Rich.mk v m))) ∧
    (smapGet k vm = none → (ObjectView.mk (Rich.mk vm mm)).get k = none) ∧
    ((((ArrayView.mk (Rich.mk vs ms)).get i).isSome = true) ↔ i < vs.length) ∧
    (∀ v, vs[i]? = some v → ∀ m, ms[i]? = some m →
      (ArrayView.mk (Rich.mk vs ms)).get i = some (ValueView.mk (Rich.mk v m))) := by
  refine ⟨?_, ?_, ?_, ?_, ?_⟩
  · rcases hv : smapGet k vm with _ | v
    · simp [ObjectView.get, hv]
    · rcases hm : smapGet k mm with _ | m <;> simp [ObjectView.get, hv, hm]
  · intro v hv m hm
    simp [ObjectView.get, hv, hm]
  · intro hv
    simp [ObjectView.get, hv]
  · rw [← getElemOpt_isSome_iff vs i]
    rcases hv : vs[i]? with _ | v
    · simp [ArrayView.get, hv]
    · rcases hm : ms[i]? with _ | m <;> simp [ArrayView.get, hv, hm]
  · intro v hv m hm
    simp [ArrayView.get, hv, hm]

/-- C7 witness: on the concrete object `{"a": true}` with metadata entry at
`"a"`, `get "a"` returns exactly the paired value and metadata;
`get "missing"` returns `None`; the array `[true]` with one metadata entry
behaves likewise at index 0. -/
theorem C7_view_get_consistency_witness :
    smapGet "a" [("a", Json.bool true)] = some (Json.bool true) ∧
    smapGet "a" [("a", c1FooMeta)] = some c1FooMeta ∧
    (ObjectView.mk (Rich.mk [("a", Json.bool true)] [("a", c1FooMeta)])).get "a" =
      some (ValueView.mk (Rich.mk (Json.bool true) c1FooMeta)) ∧
    smapGet "missing" [("a", Json.bool true)] = none ∧
    (ObjectView.mk (Rich.mk [("a", Json.bool true)] [("a", c1FooMeta)])).get "missing" =
      none ∧
    (ArrayView.mk (Rich.mk [Json.bool true] [c1FooMeta])).get 0 =
      some (ValueView.mk (Rich.mk (Json.bool true) c1FooMeta)) :=
  ⟨rfl, rfl,
   (C7_view_get_consistency [("a", Json.bool true)] [("a", c1FooMeta)] "a" [] [] 0).2.1
     (Json.bool true) rfl c1FooMeta rfl,
   rfl,
   (C7_view_get_consistency [("a", Json.bool true)] [("a", c1FooMeta)] "missing" [] [] 0).2.2.1
     rfl,
   (C7_view_get_consistency [] [] "a" [Json.bool true] [c1FooMeta] 0).2.2.2.2
     (Json.bool true) rfl c1FooMeta rfl⟩

/-- C8: when the key/index is present in the value tree but absent from the
metadata tree (metadata sequence shorter than the value sequence, or key
missing from the metadata map), `get` still returns `Some`, substituting the
canonical empty-metadata sentinel `WrappedMeta::new(None, MetaId(0))` instead
of failing. -/
theorem C8_sentinel_fallback :
    (∀ (vm : List (String × Json)) (mm : List (String × WrappedMeta (Option ValueMeta)))
      (k : String) (v : Json), smapGet k vm = some v → smapGet k mm = none →
      (ObjectView.mk (Rich.mk vm mm)).get k =
        some (ValueView.mk (Rich.mk v DEFAULT_CHILD_META))) ∧
    (∀ (vs : List Json) (ms : List (WrappedMeta (Option ValueMeta))) (i : Nat) (v : Json),
      vs[i]? = some v → ms[i]? = none →
      (ArrayView.mk (Rich.mk vs ms)).get i =
        some (ValueView.mk (Rich.mk v DEFAULT_CHILD_META))) := by
  constructor
  · intro vm mm k v hv hm
    simp [ObjectView.get, hv, hm]
  · intro vs ms i v hv hm
    simp [ArrayView.get, hv, hm]

/-- C8 witness: a value map containing `"a"` with an empty metadata map, and a
one-element value array with an empty metadata vector, both fall back to the
sentinel. -/
theorem C8_sentinel_fallback_witness :
    smapGet "a" [("a", Json.bool true)] = some (Json.bool true) ∧
    smapGet "a" ([] : List (String × WrappedMeta (Option ValueMeta))) = none ∧
    (ObjectView.mk (Rich.mk [("a", Json.bool true)] [])).get "a" =
      some (ValueView.mk (Rich.mk (Json.bool true) DEFAULT_CHILD_META)) ∧
    ([Json.bool true][0]? = some (Json.bool true)) ∧
    (([] : List (WrappedMeta (Option ValueMeta)))[0]? = none) ∧
    (ArrayView.mk (Rich.mk [Json.bool true] [])).get 0 =
      some (ValueView.mk (Rich.mk (Json.bool true) DEFAULT_CHILD_META)) :=
  ⟨rfl, rfl,
   C8_sentinel_fallback.1 [("a", Json.bool true)] [] "a" (Json.bool true) rfl rfl,
   rfl, rfl,
   C8_sentinel_fallback.2 [Json.bool true] [] 0 (Json.bool true) rfl rfl⟩

/-- C10: every sentinel fallback in the view layer reports own identifier
`MetaId 0` — in `ObjectView::get` and `ArrayView::get` (first two conjuncts)
and in `ValueView::visit`'s boolean arm (third conjunct, whose default
carries id 0) — and `MetaId 0` is also the first identifier genuinely minted
by a fresh scope (fourth conjunct).  Concretely, decoding the document `[]`
from a fresh scope gives its root union node the genuine identifier 0 (fifth
and sixth conjuncts), while a fallback view over a value child with missing
metadata also reports identifier 0 (seventh and eighth conjuncts), although
the two views are distinct views of distinct nodes (ninth conjunct): an
identifier read from a view does not uniquely name one node. -/
theorem C10_sentinel_identifier_collision :
    (∀ (vm : List (String × Json)) (mm : List (String × WrappedMeta (Option ValueMeta)))
      (k : String) (v : Json), smapGet k vm = some v → smapGet k mm = none →
      ((ObjectView.mk (Rich.mk vm mm)).get k).map ValueView.meta = some (MetaId.mk 0)) ∧
    (∀ (vs : List Json) (ms : List (WrappedMeta (Option ValueMeta))) (i : Nat) (v : Json),
      vs[i]? = some v → ms[i]? = none →
      ((ArrayView.mk (Rich.mk vs ms)).get i).map ValueView.meta = some (MetaId.mk 0)) ∧
    (∀ (b : Bool) (id : MetaId),
      (ValueView.mk (Rich.mk (Json.bool b) (WrappedMeta.mk none id))).visit =
        some (ValueVisit.Bool (BoolView.mk (Rich.mk b DEFAULT_BOOL_META))) ∧
      DEFAULT_BOOL_META.id = MetaId.mk 0) ∧
    (∀ (T : Type) (x : T), ((RichScope.new).attach x).1.meta = MetaId.mk 0) ∧
    (rich_deserialize (Json.arr []) RichScope.new =
      some (Rich.mk (Json.arr [])
        (WrappedMeta.mk (some (ValueMeta.arr [])) (MetaId.mk 0)), RichScope.mk 1)) ∧
    ((ValueView.mk (Rich.mk (Json.arr [])
      (WrappedMeta.mk (some (ValueMeta.arr [])) (MetaId.mk 0)))).meta = MetaId.mk 0) ∧
    ((ArrayView.mk (Rich.mk [Json.bool true] [])).get 0 =
      some (ValueView.mk (Rich.mk (Json.bool true) DEFAULT_CHILD_META))) ∧
    ((ValueView.mk (Rich.mk (Json.bool true) DEFAULT_CHILD_META)).meta = MetaId.mk 0) ∧
    (ValueView.mk (Rich.mk (Json.arr [])
        (WrappedMeta.mk (some (ValueMeta.arr [])) (MetaId.mk 0))) ≠
      ValueView.mk (Rich.mk (Json.bool true) DEFAULT_CHILD_META)) := by
  refine ⟨?_, ?_, ?_, ?_, rfl, rfl, rfl, rfl, ?_⟩
  · intro vm mm k v hv hm
    simp [ObjectView.get, hv, hm, ValueView.meta, DEFAULT_CHILD_META, WrappedMeta.new,
      MetaId.from_usize]
  · intro vs ms i v hv hm
    simp [ArrayView.get, hv, hm, ValueView.meta, DEFAULT_CHILD_META, WrappedMeta.new,
      MetaId.from_usize]
  · intro b id
    exact ⟨rfl, rfl⟩
  · intro T x
    rfl
  · intro h
    exact Json.noConfusion (congrArg (fun v => v.toRich.value) h)

/-- C10 witness: concrete fallback lookups reporting identifier 0. -/
theorem C10_sentinel_identifier_collision_witness :
    ((ObjectView.mk (Rich.mk [("a", Json.bool true)] [])).get "a").map ValueView.meta =
      some (MetaId.mk 0) ∧
    ((ArrayView.mk (Rich.mk [Json.bool true] [])).get 0).map ValueView.meta =
      some (MetaId.mk 0) :=
  ⟨C10_sentinel_identifier_collision.1 [("a", Json.bool true)] [] "a" (Json.bool true) rfl rfl,
   C10_sentinel_identifier_collision.2.1 [Json.bool true] [] 0 (Json.bool true) rfl rfl⟩
